import Mathlib

/-!
Shallow embedding of the storefront data-access layer (`src/db.ts`).

The persisted document is a record of six collections (`DBState`).  Every
public operation of the `DB` facade loads the whole document, performs an
in-memory read or mutation, and (on the mutating paths) writes the whole
document back.  Here each operation is a pure function from `DBState` to its
result together with the state as it stands when the operation returns and a
`Bool` recording whether `saveState` (i.e. a write to the backing medium)
was executed on that path.  TypeScript `number` fields are modelled as `Int`;
optional fields as `Option`; in-place mutation of an element found by
`Array.prototype.find` becomes `mutFirst`, which rewrites the first element
satisfying the predicate and leaves everything else in place.

The record types `User`, `Item`, … live in `types.ts`, which is not part of
the sources; their fields are modelled from the spec's data-model table and
from the fields `db.ts` actually reads and writes.
-/

namespace Shop

inductive UserRole where
  | standard
  | admin
deriving DecidableEq, Repr

/-- Modelled from the spec: `types.ts` is absent; the spec lists id, role and
a numeric credits balance for `User`. -/
structure User where
  id : String
  role : UserRole
  credits : Int
deriving DecidableEq, Repr

inductive ItemType where
  | INSTANT
  | SEQUENTIAL
deriving DecidableEq, Repr

/-- Modelled from the spec: a sequential unit has a content string and a
delivered latch. -/
structure SequentialItem where
  content : String
  isDelivered : Bool
deriving DecidableEq, Repr

/-- Modelled from the spec: `content` is optional (INSTANT items), and
`db.ts` reaches `sequentialItems` through optional chaining, so both are
`Option`. -/
structure Item where
  id : String
  name : String
  price : Int
  type : ItemType
  content : Option String
  sequentialItems : Option (List SequentialItem)
  deliveredCount : Int
deriving DecidableEq, Repr

structure Purchase where
  id : String
  userId : String
  itemId : String
  itemName : String
  contentDelivered : String
  timestamp : Int
  price : Int
deriving DecidableEq, Repr

inductive TransactionStatus where
  | PENDING
  | APPROVED
  | REJECTED
deriving DecidableEq, Repr

structure Transaction where
  id : String
  userId : String
  amount : Int
  status : TransactionStatus
deriving DecidableEq, Repr

structure RedeemCode where
  code : String
  amount : Int
  isUsed : Bool
deriving DecidableEq, Repr

inductive TicketStatus where
  | OPEN
  | CLOSED
deriving DecidableEq, Repr

/-- Modelled from the spec: content/sender/timestamp fields. -/
structure TicketMessage where
  content : String
  sender : String
  timestamp : Int
deriving DecidableEq, Repr

structure Ticket where
  id : String
  messages : List TicketMessage
  status : TicketStatus
  lastUpdated : Int
deriving DecidableEq, Repr

/-- The serialized document under the single storage key (`DBState` in
`db.ts`). -/
structure DBState where
  users : List User
  items : List Item
  purchases : List Purchase
  transactions : List Transaction
  redeemCodes : List RedeemCode
  tickets : List Ticket
deriving DecidableEq, Repr

/-- The empty default document returned by `getInitialState` on first run. -/
def emptyState : DBState :=
  { users := [], items := [], purchases := [], transactions := [],
    redeemCodes := [], tickets := [] }

/-- `getInitialState`: parse the stored blob, or the empty document when the
key is absent.  The backing medium holds `Option DBState`. -/
def getInitialState : Option DBState → DBState
  | some s => s
  | none => emptyState

/-- Rewrite the first element satisfying `p` with `f`; the pure rendering of
`const x = xs.find(p); if (x) mutate(x);` where the found element is mutated
through its alias into the array. -/
def mutFirst (p : α → Bool) (f : α → α) : List α → List α
  | [] => []
  | x :: xs => if p x then f x :: xs else x :: mutFirst p f xs

/-! ### Users -/

/-- `addUser`: append, then save. -/
def addUser (s : DBState) (user : User) : DBState × Bool :=
  ({ s with users := s.users ++ [user] }, true)

/-- Result object `{ success, error? }` of `verifyUser`. -/
inductive VResult where
  | ok
  | err (msg : String)
deriving DecidableEq, Repr

/-- `verifyUser`: success iff the token is a non-empty string; no state
access. -/
def verifyUser (token : String) : VResult :=
  if token.length > 0 then .ok else .err "Invalid or expired verification token"

/-- `updateUserCredits`: add `amount` to the first user found by id (no-op
when absent), always save. -/
def updateUserCredits (s : DBState) (userId : String) (amount : Int) :
    DBState × Bool :=
  ({ s with users := mutFirst (fun u => u.id == userId)
                       (fun u => { u with credits := u.credits + amount })
                       s.users },
   true)

/-! ### Items -/

/-- `addItem`: append, then save. -/
def addItem (s : DBState) (item : Item) : DBState × Bool :=
  ({ s with items := s.items ++ [item] }, true)

/-- `updateItem`: `findIndex` by id; replace in place and save returning
`true` when found, otherwise return `false` without saving.  The first
component is the returned boolean. -/
def updateItem (s : DBState) (item : Item) : Bool × DBState × Bool :=
  match s.items.findIdx? (fun i => i.id == item.id) with
  | some index => (true, { s with items := s.items.set index item }, true)
  | none => (false, s, false)

/-- `deleteItem`: keep the items whose id differs, then save. -/
def deleteItem (s : DBState) (itemId : String) : DBState × Bool :=
  ({ s with items := s.items.filter (fun i => i.id != itemId) }, true)

/-! ### Purchases -/

/-- `addPurchase`: append the raw record, then save. -/
def addPurchase (s : DBState) (purchase : Purchase) : DBState × Bool :=
  ({ s with purchases := s.purchases ++ [purchase] }, true)

/-- Result object `{ success, content?, error? }` of `processPurchase`. -/
inductive PResult where
  | ok (content : String)
  | err (msg : String)
deriving DecidableEq, Repr

/-- `sequentialItems.find(si => !si.isDelivered)` followed by
`available.isDelivered = true`: the content of the first undelivered unit and
the list with that unit marked delivered. -/
def deliverFirst : List SequentialItem → Option (String × List SequentialItem)
  | [] => none
  | si :: rest =>
    if si.isDelivered then
      (deliverFirst rest).map (fun r => (r.1, si :: r.2))
    else
      some (si.content, { si with isDelivered := true } :: rest)

/-- The fulfilment branch of `processPurchase` (step 3): for INSTANT items
the content is `item.content || ''` and the item is untouched; otherwise the
first undelivered sequential unit is delivered and `deliveredCount` bumped,
and `none` means out of stock. -/
def deliverContent (item : Item) : Option (String × Item) :=
  match item.type with
  | .INSTANT => some (item.content.getD "", item)
  | .SEQUENTIAL =>
    match item.sequentialItems with
    | none => none
    | some sis =>
      match deliverFirst sis with
      | none => none
      | some r =>
        some (r.1, { item with sequentialItems := some r.2,
                               deliveredCount := item.deliveredCount + 1 })

/-- `processPurchase`.  The freshly generated purchase id (`Math.random…`)
and the timestamp (`Date.now()`) are passed in as `newId` and `now`. -/
def processPurchase (s : DBState) (userId itemId newId : String) (now : Int) :
    PResult × DBState × Bool :=
  match s.users.find? (fun u => u.id == userId),
        s.items.find? (fun i => i.id == itemId) with
  | some user, some item =>
    if user.credits < item.price then (.err "Insufficient credits", s, false)
    else
      match deliverContent item with
      | none => (.err "Out of stock", s, false)
      | some r =>
        (.ok r.1,
         { s with
           users := mutFirst (fun u => u.id == userId)
             (fun u => { u with credits := u.credits - item.price }) s.users,
           items := mutFirst (fun i => i.id == itemId) (fun _ => r.2) s.items,
           purchases := s.purchases ++
             [{ id := newId, userId := userId, itemId := itemId,
                itemName := item.name, contentDelivered := r.1,
                timestamp := now, price := item.price }] },
         true)
  | _, _ => (.err "User or Item not found", s, false)

/-! ### Transactions -/

/-- `addTransaction`: append, then save. -/
def addTransaction (s : DBState) (transaction : Transaction) : DBState × Bool :=
  ({ s with transactions := s.transactions ++ [transaction] }, true)

/-- `updateTransactionStatus`: set the status of the first transaction found
by id; when the new status is APPROVED additionally credit `tx.amount` to the
first user whose id is `tx.userId`; always save. -/
def updateTransactionStatus (s : DBState) (id : String)
    (status : TransactionStatus) : DBState × Bool :=
  match s.transactions.find? (fun t => t.id == id) with
  | none => (s, true)
  | some tx =>
    let s1 := { s with transactions := mutFirst (fun t => t.id == id)
                                         (fun t => { t with status := status })
                                         s.transactions }
    if status == .APPROVED then
      ({ s1 with users := mutFirst (fun u => u.id == tx.userId)
                           (fun u => { u with credits := u.credits + tx.amount })
                           s1.users },
       true)
    else (s1, true)

/-! ### Redeem codes -/

/-- `addRedeemCode`: append, then save. -/
def addRedeemCode (s : DBState) (code : RedeemCode) : DBState × Bool :=
  ({ s with redeemCodes := s.redeemCodes ++ [code] }, true)

/-- Result object `{ success, amount?, error? }` of `redeem`. -/
inductive RResult where
  | ok (amount : Int)
  | err (msg : String)
deriving DecidableEq, Repr

/-- `redeem`: find the user, then an unused code with the given string; mark
it used and credit its amount. -/
def redeem (s : DBState) (userId codeStr : String) : RResult × DBState × Bool :=
  match s.users.find? (fun u => u.id == userId) with
  | none => (.err "User not found", s, false)
  | some _ =>
    match s.redeemCodes.find? (fun c => c.code == codeStr && !c.isUsed) with
    | none => (.err "Invalid or already used code", s, false)
    | some code =>
      (.ok code.amount,
       { s with
         redeemCodes := mutFirst (fun c => c.code == codeStr && !c.isUsed)
           (fun c => { c with isUsed := true }) s.redeemCodes,
         users := mutFirst (fun u => u.id == userId)
           (fun u => { u with credits := u.credits + code.amount }) s.users },
       true)

/-! ### Tickets -/

/-- `createTicket`: append, then save. -/
def createTicket (s : DBState) (ticket : Ticket) : DBState × Bool :=
  ({ s with tickets := s.tickets ++ [ticket] }, true)

/-- `addTicketMessage`: append the message and bump `lastUpdated` on the
first ticket found by id; always save.  `now` stands for `Date.now()`. -/
def addTicketMessage (s : DBState) (ticketId : String) (message : TicketMessage)
    (now : Int) : DBState × Bool :=
  ({ s with tickets := mutFirst (fun t => t.id == ticketId)
                         (fun t => { t with messages := t.messages ++ [message],
                                            lastUpdated := now })
                         s.tickets },
   true)

/-- `closeTicket`: set CLOSED and bump `lastUpdated` on the first ticket
found by id; always save. -/
def closeTicket (s : DBState) (ticketId : String) (now : Int) : DBState × Bool :=
  ({ s with tickets := mutFirst (fun t => t.id == ticketId)
                         (fun t => { t with status := .CLOSED,
                                            lastUpdated := now })
                         s.tickets },
   true)

/-! ### The backing medium

The read-only operations of the facade, seen from the backing medium: they
load via `getInitialState` and never call `saveState`, so the medium
component of their result is the input medium.  `runW` lifts a mutating
operation: when the operation's path saved, the medium holds the new
document, otherwise it is untouched. -/

def getUsers (m : Option DBState) : List User × Option DBState :=
  ((getInitialState m).users, m)

def getItems (m : Option DBState) : List Item × Option DBState :=
  ((getInitialState m).items, m)

def getPurchases (m : Option DBState) : List Purchase × Option DBState :=
  ((getInitialState m).purchases, m)

def getTransactions (m : Option DBState) : List Transaction × Option DBState :=
  ((getInitialState m).transactions, m)

def getRedeemCodes (m : Option DBState) : List RedeemCode × Option DBState :=
  ((getInitialState m).redeemCodes, m)

def getTickets (m : Option DBState) : List Ticket × Option DBState :=
  ((getInitialState m).tickets, m)

/-- Run a mutating operation against the backing medium. -/
def runW (f : DBState → DBState × Bool) (m : Option DBState) : Option DBState :=
  let r := f (getInitialState m)
  if r.2 then some r.1 else m

/-! ### Whole-facade step

One mutating call of the facade, used to state store-wide invariants
(every operation of `db.ts` that can touch the persisted document). -/

inductive Op where
  | addUser (u : User)
  | updateUserCredits (userId : String) (amount : Int)
  | addItem (i : Item)
  | updateItem (i : Item)
  | deleteItem (itemId : String)
  | addPurchase (p : Purchase)
  | processPurchase (userId itemId newId : String) (now : Int)
  | addTransaction (t : Transaction)
  | updateTransactionStatus (id : String) (st : TransactionStatus)
  | addRedeemCode (c : RedeemCode)
  | redeem (userId codeStr : String)
  | createTicket (t : Ticket)
  | addTicketMessage (ticketId : String) (m : TicketMessage) (now : Int)
  | closeTicket (ticketId : String) (now : Int)
deriving DecidableEq, Repr

/-- The state as it stands after one facade operation. -/
def applyOp : Op → DBState → DBState
  | .addUser u, s => (addUser s u).1
  | .updateUserCredits uid a, s => (updateUserCredits s uid a).1
  | .addItem i, s => (addItem s i).1
  | .updateItem i, s => (updateItem s i).2.1
  | .deleteItem iid, s => (deleteItem s iid).1
  | .addPurchase p, s => (addPurchase s p).1
  | .processPurchase uid iid pid now, s => (processPurchase s uid iid pid now).2.1
  | .addTransaction t, s => (addTransaction s t).1
  | .updateTransactionStatus id st, s => (updateTransactionStatus s id st).1
  | .addRedeemCode c, s => (addRedeemCode s c).1
  | .redeem uid c, s => (redeem s uid c).2.1
  | .createTicket t, s => (createTicket s t).1
  | .addTicketMessage tid m now, s => (addTicketMessage s tid m now).1
  | .closeTicket tid now, s => (closeTicket s tid now).1

/-! ### Iterated purchases

`runPurchases uid iid ids times k s` is the state after `k` successive
`processPurchase uid iid` calls, the `j`-th call using the generated id
`ids j` and timestamp `times j`. -/

def runPurchases (userId itemId : String) (ids : Nat → String)
    (times : Nat → Int) : Nat → DBState → DBState
  | 0, s => s
  | k + 1, s =>
    (processPurchase (runPurchases userId itemId ids times k s)
      userId itemId (ids k) (times k)).2.1

/-- The sequential stock with its first `k` units marked delivered. -/
def markFirst : Nat → List SequentialItem → List SequentialItem
  | 0, l => l
  | _ + 1, [] => []
  | k + 1, si :: rest => { si with isDelivered := true } :: markFirst k rest

/-! ### Sequences of item mutations -/

inductive ItemOp where
  | add (i : Item)
  | del (itemId : String)
deriving DecidableEq, Repr

def applyItemOp : ItemOp → DBState → DBState
  | .add i, s => (addItem s i).1
  | .del iid, s => (deleteItem s iid).1

def applyItemOps : List ItemOp → DBState → DBState
  | [], s => s
  | op :: ops, s => applyItemOps ops (applyItemOp op s)

/-- An item with this id survives the remaining call sequence: no later
`deleteItem` call names it. -/
def survivesOps (ops : List ItemOp) (id : String) : Bool :=
  ops.all fun op =>
    match op with
    | .del iid => id != iid
    | .add _ => true

/-- The items added by the call sequence that are not deleted by a later
call, in insertion order. -/
def addedSurvivors : List ItemOp → List Item
  | [] => []
  | .add i :: ops =>
    (if survivesOps ops i.id then [i] else []) ++ addedSurvivors ops
  | .del _ :: ops => addedSurvivors ops

/-! ### Concrete example data -/

def exUser : User := { id := "u1", role := .standard, credits := 100 }

def exItemSeq : Item :=
  { id := "i1", name := "seq", price := 5, type := .SEQUENTIAL,
    content := none,
    sequentialItems := some [⟨"k1", false⟩, ⟨"k2", false⟩],
    deliveredCount := 0 }

/-- A SEQUENTIAL item whose stock list is empty: both the existence and the
credits checks pass for `exUser`, yet the purchase fails. -/
def exItemEmpty : Item :=
  { id := "i2", name := "empty", price := 5, type := .SEQUENTIAL,
    content := none, sequentialItems := some [], deliveredCount := 0 }

def exItemInstant : Item :=
  { id := "i3", name := "inst", price := 30, type := .INSTANT,
    content := some "CODE123", sequentialItems := none, deliveredCount := 0 }

def exCodeUsed : RedeemCode := { code := "WELCOME10", amount := 10, isUsed := true }

def exTx : Transaction :=
  { id := "t1", userId := "u1", amount := 25, status := .PENDING }

def exTxOrphan : Transaction :=
  { id := "t2", userId := "ghost", amount := 25, status := .PENDING }

def exState : DBState :=
  { users := [exUser], items := [exItemSeq, exItemEmpty, exItemInstant],
    purchases := [], transactions := [exTx, exTxOrphan],
    redeemCodes := [exCodeUsed], tickets := [] }

/-- Single user, single fresh sequential item: the setting of the stock
depletion claim. -/
def exSeqState : DBState :=
  { users := [exUser], items := [exItemSeq], purchases := [],
    transactions := [], redeemCodes := [], tickets := [] }

/-! ## Lemma kit -/

theorem mutFirst_getElem?_of_neg {α : Type} {p : α → Bool} {f : α → α} :
    ∀ (l : List α) (i : Nat) (x : α), l[i]? = some x → p x = false →
      (mutFirst p f l)[i]? = some x := by
  intro l
  induction l with
  | nil => intro i x h _; simp at h
  | cons a as ih =>
    intro i x h hp
    cases i with
    | zero =>
      simp only [List.getElem?_cons_zero, Option.some.injEq] at h
      subst h
      simp [mutFirst, hp]
    | succ j =>
      simp only [List.getElem?_cons_succ] at h
      by_cases hpa : p a
      · simp [mutFirst, hpa, h]
      · simp [mutFirst, hpa, ih j x h hp]

theorem find?_mutFirst {α : Type} {p : α → Bool} {f : α → α} :
    ∀ {l : List α} {a : α}, l.find? p = some a → p (f a) = true →
      (mutFirst p f l).find? p = some (f a) := by
  intro l
  induction l with
  | nil => intro a h _; simp at h
  | cons x xs ih =>
    intro a h hfa
    by_cases hx : p x
    · rw [List.find?_cons_of_pos _ hx, Option.some.injEq] at h
      subst h
      simp [mutFirst, hx, List.find?_cons_of_pos _ hfa]
    · rw [List.find?_cons_of_neg _ (by simpa using hx)] at h
      have hx' : p x = false := by simpa using hx
      simp only [mutFirst, hx', Bool.false_eq_true, if_false]
      rw [List.find?_cons_of_neg _ (by simpa using hx)]
      exact ih h hfa

theorem mutFirst_eq_self {α : Type} {p : α → Bool} {f : α → α} :
    ∀ {l : List α} {a : α}, l.find? p = some a → f a = a →
      mutFirst p f l = l := by
  intro l
  induction l with
  | nil => intro a h _; simp at h
  | cons x xs ih =>
    intro a h hfa
    by_cases hx : p x
    · rw [List.find?_cons_of_pos _ hx, Option.some.injEq] at h
      subst h
      simp [mutFirst, hx, hfa]
    · have hx' : p x = false := by simpa using hx
      rw [List.find?_cons_of_neg _ (by simpa using hx)] at h
      simp [mutFirst, hx', ih h hfa]

theorem mutFirst_of_find?_eq_none {α : Type} {p : α → Bool} {f : α → α} :
    ∀ {l : List α}, l.find? p = none → mutFirst p f l = l := by
  intro l
  induction l with
  | nil => intro _; rfl
  | cons x xs ih =>
    intro h
    rw [List.find?_eq_none] at h
    have hx : p x = false := by simpa using h x (by simp)
    have hxs : xs.find? p = none := by
      rw [List.find?_eq_none]
      intro y hy
      exact h y (by simp [hy])
    simp [mutFirst, hx, ih hxs]

theorem deliverFirst_eq_none_iff (l : List SequentialItem) :
    deliverFirst l = none ↔ ∀ si ∈ l, si.isDelivered = true := by
  induction l with
  | nil => simp [deliverFirst]
  | cons si rest ih =>
    by_cases h : si.isDelivered
    · simp [deliverFirst, h, Option.map_eq_none', ih]
    · simp [deliverFirst, h]

theorem markFirst_all_delivered :
    ∀ (l : List SequentialItem) (k : Nat), l.length ≤ k →
      ∀ si ∈ markFirst k l, si.isDelivered = true := by
  intro l
  induction l with
  | nil =>
    intro k _ si hsi
    cases k <;> simp [markFirst] at hsi
  | cons a as ih =>
    intro k hk si hsi
    cases k with
    | zero => simp at hk
    | succ j =>
      simp only [markFirst, List.mem_cons] at hsi
      rcases hsi with h | h
      · subst h; rfl
      · exact ih j (by simpa using hk) si h

theorem deliverFirst_markFirst :
    ∀ (l : List SequentialItem), (∀ si ∈ l, si.isDelivered = false) →
      ∀ (k : Nat) (hk : k < l.length),
        deliverFirst (markFirst k l) =
          some ((l.get ⟨k, hk⟩).content, markFirst (k + 1) l) := by
  intro l
  induction l with
  | nil => intro _ k hk; simp at hk
  | cons a as ih =>
    intro hund k hk
    cases k with
    | zero =>
      have ha : a.isDelivered = false := hund a (by simp)
      simp [markFirst, deliverFirst, ha]
    | succ j =>
      have hj : j < as.length := by simpa using hk
      have hrest : ∀ si ∈ as, si.isDelivered = false := by
        intro si hsi; exact hund si (by simp [hsi])
      simp only [markFirst, deliverFirst, if_true]
      rw [ih hrest j hj]
      rfl

/-! ## Frame helper lemmas -/

theorem processPurchase_redeemCodes_frame (s : DBState)
    (userId itemId newId : String) (now : Int) :
    (processPurchase s userId itemId newId now).2.1.redeemCodes =
      s.redeemCodes := by
  unfold processPurchase
  split
  · split
    · rfl
    · split
      · rfl
      · rfl
  · rfl

theorem updateTransactionStatus_redeemCodes_frame (s : DBState) (id : String)
    (st : TransactionStatus) :
    (updateTransactionStatus s id st).1.redeemCodes = s.redeemCodes := by
  unfold updateTransactionStatus
  split
  · rfl
  · split
    · rfl
    · rfl

theorem updateItem_redeemCodes_frame (s : DBState) (item : Item) :
    (updateItem s item).2.1.redeemCodes = s.redeemCodes := by
  unfold updateItem
  split
  · rfl
  · rfl

theorem redeem_used_entry_frame (s : DBState) (userId codeStr : String)
    (i : Nat) (c : RedeemCode) (hc : s.redeemCodes[i]? = some c)
    (hused : c.isUsed = true) :
    (redeem s userId codeStr).2.1.redeemCodes[i]? = some c := by
  unfold redeem
  split
  · exact hc
  · split
    · exact hc
    · refine mutFirst_getElem?_of_neg _ _ _ hc ?_
      simp [hused]

/-! ## Claim theorems -/

/-- Claim C6: `updateItem(item)` returns `true` iff some stored item has the
same id; on `true` it replaces the record found by `findIndex` in place
(`List.set` at that index) and saves; on `false` the state is untouched and
no write happens. -/
theorem updateItem_spec (s : DBState) (item : Item) :
    ((updateItem s item).1 = true ↔ ∃ i ∈ s.items, i.id = item.id) ∧
    (∀ index, s.items.findIdx? (fun i => i.id == item.id) = some index →
      updateItem s item = (true, { s with items := s.items.set index item }, true)) ∧
    (s.items.findIdx? (fun i => i.id == item.id) = none →
      updateItem s item = (false, s, false)) := by
  have hiff : (s.items.findIdx? (fun i => i.id == item.id)).isSome = true ↔
      ∃ i ∈ s.items, i.id = item.id := by
    rw [List.findIdx?_isSome, List.any_eq_true]
    simp
  refine ⟨?_, ?_, ?_⟩
  · rw [← hiff]
    unfold updateItem
    rcases h : s.items.findIdx? (fun i => i.id == item.id) with _ | index
    · rw [h]
      simp
    · rw [h]
      simp
  · intro index h
    unfold updateItem
    rw [h]
  · intro h
    unfold updateItem
    rw [h]

/-- Claim C6 witness: replacing the stored item `i3` in `exState`. -/
theorem updateItem_spec_witness :
    updateItem exState { exItemInstant with price := 50 } =
      (true,
       { exState with
         items := exState.items.set 2 { exItemInstant with price := 50 } },
       true) :=
  (updateItem_spec exState { exItemInstant with price := 50 }).2.1 2 (by decide)

/-- Claim C8: with the backing key absent, all six read operations return
the empty sequence and leave the medium untouched (no write of the empty
default document); the first write happens on a mutating call such as
`addUser`. -/
theorem first_run_reads (u : User) :
    getUsers none = ([], none) ∧
    getItems none = ([], none) ∧
    getPurchases none = ([], none) ∧
    getTransactions none = ([], none) ∧
    getRedeemCodes none = ([], none) ∧
    getTickets none = ([], none) ∧
    runW (fun s => addUser s u) none = some { emptyState with users := [u] } := by
  refine ⟨rfl, rfl, rfl, rfl, rfl, rfl, ?_⟩
  simp [runW, addUser, getInitialState, emptyState]

/-- Claim C9: approving a transaction whose `userId` matches no stored user
still sets the status and saves, while every user record is untouched and no
error is surfaced. -/
theorem updateTransactionStatus_orphan (s : DBState) (id : String)
    (tx : Transaction)
    (htx : s.transactions.find? (fun t => t.id == id) = some tx)
    (hu : s.users.find? (fun x => x.id == tx.userId) = none) :
    updateTransactionStatus s id .APPROVED =
      ({ s with
         transactions := mutFirst (fun t => t.id == id)
                           (fun t => { t with status := .APPROVED })
                           s.transactions },
       true) ∧
    (updateTransactionStatus s id .APPROVED).1.users = s.users := by
  have h1 : updateTransactionStatus s id .APPROVED =
      ({ s with
         transactions := mutFirst (fun t => t.id == id)
                           (fun t => { t with status := .APPROVED })
                           s.transactions },
       true) := by
    unfold updateTransactionStatus
    rw [htx]
    simp only [beq_self_eq_true, if_true]
    rw [mutFirst_of_find?_eq_none hu]
  exact ⟨h1, by rw [h1]⟩

/-- Claim C9 witness: approving `t2`, whose owner id `ghost` matches no user
in `exState`. -/
theorem updateTransactionStatus_orphan_witness :
    (updateTransactionStatus exState "t2" .APPROVED).1.users = exState.users :=
  (updateTransactionStatus_orphan exState "t2" exTxOrphan (by decide)
    (by decide)).2

/-- Claim C4: when every stored code bearing `codeStr` is already used,
`redeem` fails with "Invalid or already used code" without touching the
state or the medium; and a used `RedeemCode` entry is frozen — no facade
operation ever changes it (in particular its `isUsed` latch never resets and
no later redeem selects it). -/
theorem redeem_used_code (s : DBState) (userId codeStr : String) (u : User)
    (hu : s.users.find? (fun x => x.id == userId) = some u)
    (hused : ∀ c ∈ s.redeemCodes, c.code = codeStr → c.isUsed = true) :
    redeem s userId codeStr = (.err "Invalid or already used code", s, false) ∧
    (∀ (op : Op) (s2 : DBState) (i : Nat) (c : RedeemCode),
       s2.redeemCodes[i]? = some c → c.isUsed = true →
       (applyOp op s2).redeemCodes[i]? = some c) := by
  constructor
  · have hnone : s.redeemCodes.find?
        (fun c => c.code == codeStr && !c.isUsed) = none := by
      rw [List.find?_eq_none]
      intro c hc
      by_cases h : c.code = codeStr
      · simp [h, hused c hc h]
      · simp [h]
    unfold redeem
    simp only [hu, hnone]
  · intro op s2 i c hc hused2
    cases op with
    | addUser u0 => simpa [applyOp, addUser] using hc
    | updateUserCredits uid a => simpa [applyOp, updateUserCredits] using hc
    | addItem i0 => simpa [applyOp, addItem] using hc
    | updateItem i0 =>
      simp only [applyOp]
      rw [updateItem_redeemCodes_frame]
      exact hc
    | deleteItem iid => simpa [applyOp, deleteItem] using hc
    | addPurchase p => simpa [applyOp, addPurchase] using hc
    | processPurchase uid iid pid now =>
      simp only [applyOp]
      rw [processPurchase_redeemCodes_frame]
      exact hc
    | addTransaction t => simpa [applyOp, addTransaction] using hc
    | updateTransactionStatus id st =>
      simp only [applyOp]
      rw [updateTransactionStatus_redeemCodes_frame]
      exact hc
    | addRedeemCode c0 =>
      have hlt : i < s2.redeemCodes.length :=
        (List.getElem?_eq_some_iff.mp hc).1
      simp only [applyOp, addRedeemCode]
      rw [List.getElem?_append_left hlt]
      exact hc
    | redeem uid code =>
      simp only [applyOp]
      exact redeem_used_entry_frame s2 uid code i c hc hused2
    | createTicket t => simpa [applyOp, createTicket] using hc
    | addTicketMessage tid m now => simpa [applyOp, addTicketMessage] using hc
    | closeTicket tid now => simpa [applyOp, closeTicket] using hc

/-- Claim C4 witness: redeeming the used code `WELCOME10` in `exState`
fails without effects, and redeeming it leaves the used entry frozen. -/
theorem redeem_used_code_witness :
    redeem exState "u1" "WELCOME10" =
      (.err "Invalid or already used code", exState, false) ∧
    (applyOp (.redeem "u1" "WELCOME10") exState).redeemCodes[0]? =
      some exCodeUsed := by
  have h := redeem_used_code exState "u1" "WELCOME10" exUser (by decide)
    (by decide)
  exact ⟨h.1, h.2 (.redeem "u1" "WELCOME10") exState 0 exCodeUsed (by decide)
    (by decide)⟩

/-- Claim C5: if the purchasing user's stored credits are non-negative and
`processPurchase` succeeds, the stored credits afterwards are still
non-negative: the debit only happens under the `credits >= price` guard. -/
theorem processPurchase_nonneg (s : DBState) (userId itemId newId : String)
    (now : Int) (u : User) (content : String)
    (hu : s.users.find? (fun x => x.id == userId) = some u)
    (h0 : 0 ≤ u.credits)
    (hok : (processPurchase s userId itemId newId now).1 = .ok content) :
    ∃ u2, (processPurchase s userId itemId newId now).2.1.users.find?
        (fun x => x.id == userId) = some u2 ∧ 0 ≤ u2.credits := by
  rcases hi : s.items.find? (fun x => x.id == itemId) with _ | it
  · exfalso
    unfold processPurchase at hok
    simp only [hu, hi] at hok
    exact PResult.noConfusion hok
  · by_cases hcr : u.credits < it.price
    · exfalso
      unfold processPurchase at hok
      simp only [hu, hi, if_pos hcr] at hok
      exact PResult.noConfusion hok
    · rcases hd : deliverContent it with _ | r
      · exfalso
        unfold processPurchase at hok
        simp only [hu, hi, if_neg hcr, hd] at hok
        exact PResult.noConfusion hok
      · have hid : (u.id == userId) = true := by
          have h3 := List.find?_some hu
          simpa using h3
        have hpu : (fun x : User => x.id == userId)
            { u with credits := u.credits - it.price } = true := by
          simpa using hid
        refine ⟨{ u with credits := u.credits - it.price }, ?_, ?_⟩
        · unfold processPurchase
          simp only [hu, hi, if_neg hcr, hd]
          exact find?_mutFirst hu hpu
        · show 0 ≤ u.credits - it.price
          simp only [not_lt] at hcr
          omega

/-- Claim C5 witness: buying the instant item `i3` from credits 100. -/
theorem processPurchase_nonneg_witness :
    ∃ u2, (processPurchase exState "u1" "i3" "p1" 7).2.1.users.find?
        (fun x => x.id == "u1") = some u2 ∧ 0 ≤ u2.credits :=
  processPurchase_nonneg exState "u1" "i3" "p1" 7 exUser "CODE123" (by decide)
    (by decide) (by decide)

/-- Claim C10: a successful purchase of an INSTANT item leaves the items
collection (and everything except the buyer's credits and the purchase log)
unchanged, and returns `item.content` with the empty string as default. -/
theorem processPurchase_instant (s : DBState) (userId itemId newId : String)
    (now : Int) (u : User) (it : Item)
    (hu : s.users.find? (fun x => x.id == userId) = some u)
    (hi : s.items.find? (fun x => x.id == itemId) = some it)
    (hty : it.type = .INSTANT)
    (hcr : ¬ u.credits < it.price) :
    processPurchase s userId itemId newId now =
      (.ok (it.content.getD ""),
       { s with
         users := mutFirst (fun x => x.id == userId)
                    (fun x => { x with credits := x.credits - it.price })
                    s.users,
         purchases := s.purchases ++
           [{ id := newId, userId := userId, itemId := itemId,
              itemName := it.name, contentDelivered := it.content.getD "",
              timestamp := now, price := it.price }] },
       true) ∧
    (processPurchase s userId itemId newId now).2.1.items = s.items := by
  have hd : deliverContent it = some (it.content.getD "", it) := by
    unfold deliverContent
    rw [hty]
  have hmut : mutFirst (fun x : Item => x.id == itemId) (fun _ => it)
      s.items = s.items := mutFirst_eq_self hi rfl
  have h1 : processPurchase s userId itemId newId now =
      (.ok (it.content.getD ""),
       { s with
         users := mutFirst (fun x => x.id == userId)
                    (fun x => { x with credits := x.credits - it.price })
                    s.users,
         purchases := s.purchases ++
           [{ id := newId, userId := userId, itemId := itemId,
              itemName := it.name, contentDelivered := it.content.getD "",
              timestamp := now, price := it.price }] },
       true) := by
    unfold processPurchase
    simp only [hu, hi, if_neg hcr, hd, hmut]
  exact ⟨h1, by rw [h1]⟩

/-- Claim C10 witness: the INSTANT purchase of `i3` in `exState`. -/
theorem processPurchase_instant_witness :
    (processPurchase exState "u1" "i3" "p1" 7).2.1.items = exState.items :=
  (processPurchase_instant exState "u1" "i3" "p1" 7 exUser exItemInstant
    (by decide) (by decide) (by decide) (by decide)).2

theorem updateTransactionStatus_approved (s : DBState) (id : String)
    (tx : Transaction)
    (htx : s.transactions.find? (fun t => t.id == id) = some tx) :
    updateTransactionStatus s id .APPROVED =
      ({ s with
         transactions := mutFirst (fun t => t.id == id)
                           (fun t => { t with status := .APPROVED })
                           s.transactions,
         users := mutFirst (fun x => x.id == tx.userId)
                    (fun x => { x with credits := x.credits + tx.amount })
                    s.users },
       true) := by
  unfold updateTransactionStatus
  simp only [htx]
  rw [if_pos (by decide :
    (TransactionStatus.APPROVED == TransactionStatus.APPROVED) = true)]

/-- Claim C3: approving a stored transaction (found by its id, owned by a
stored user) sets its status to APPROVED and adds exactly `tx.amount` to the
owner's credits; a second APPROVED call adds `tx.amount` again (no
idempotence guard); any non-APPROVED status leaves every user's credits
untouched. -/
theorem updateTransactionStatus_credits (s : DBState) (tx : Transaction)
    (u : User)
    (htx : s.transactions.find? (fun t => t.id == tx.id) = some tx)
    (hu : s.users.find? (fun x => x.id == tx.userId) = some u) :
    (updateTransactionStatus s tx.id .APPROVED).1.transactions.find?
        (fun t => t.id == tx.id) = some { tx with status := .APPROVED } ∧
    (updateTransactionStatus s tx.id .APPROVED).1.users.find?
        (fun x => x.id == tx.userId) =
      some { u with credits := u.credits + tx.amount } ∧
    (updateTransactionStatus (updateTransactionStatus s tx.id .APPROVED).1
        tx.id .APPROVED).1.users.find? (fun x => x.id == tx.userId) =
      some { u with credits := u.credits + tx.amount + tx.amount } ∧
    (∀ (s2 : DBState) (id : String) (st : TransactionStatus),
       st ≠ .APPROVED → (updateTransactionStatus s2 id st).1.users = s2.users) := by
  have huid : (u.id == tx.userId) = true := by
    simpa using List.find?_some hu
  have h1 := updateTransactionStatus_approved s tx.id tx htx
  have htx1 : (updateTransactionStatus s tx.id .APPROVED).1.transactions.find?
      (fun t => t.id == tx.id) = some { tx with status := .APPROVED } := by
    rw [h1]
    exact find?_mutFirst htx (by simp)
  have hu1 : (updateTransactionStatus s tx.id .APPROVED).1.users.find?
      (fun x => x.id == tx.userId) =
      some { u with credits := u.credits + tx.amount } := by
    rw [h1]
    exact find?_mutFirst hu (by simpa using huid)
  have h2 := updateTransactionStatus_approved
    (updateTransactionStatus s tx.id .APPROVED).1 tx.id
    { tx with status := .APPROVED } htx1
  refine ⟨htx1, hu1, ?_, ?_⟩
  · rw [h2]
    exact find?_mutFirst hu1 (by simpa using huid)
  · intro s2 id st hst
    have hb : (st == TransactionStatus.APPROVED) = false := by
      cases st <;> simp_all
    unfold updateTransactionStatus
    rcases h : s2.transactions.find? (fun t => t.id == id) with _ | tx2
    · simp only [h]
    · simp only [h, hb, Bool.false_eq_true, if_false]

/-- Claim C3 witness: approving `t1` once and twice in `exState`, and a
REJECTED call leaving users untouched. -/
theorem updateTransactionStatus_credits_witness :
    (updateTransactionStatus exState "t1" .APPROVED).1.users.find?
        (fun x => x.id == "u1") = some { exUser with credits := 125 } ∧
    (updateTransactionStatus (updateTransactionStatus exState "t1" .APPROVED).1
        "t1" .APPROVED).1.users.find? (fun x => x.id == "u1") =
      some { exUser with credits := 150 } ∧
    (updateTransactionStatus exState "t1" .REJECTED).1.users = exState.users := by
  have h := updateTransactionStatus_credits exState exTx exUser (by decide)
    (by decide)
  refine ⟨?_, ?_, h.2.2.2 exState "t1" .REJECTED (by decide)⟩
  · have h3 := h.2.1
    have he : exUser.credits + exTx.amount = (125 : Int) := by decide
    rw [he] at h3
    exact h3
  · have h3 := h.2.2.1
    have he : exUser.credits + exTx.amount + exTx.amount = (150 : Int) := by
      decide
    rw [he] at h3
    exact h3

/-- Claim C1 (amended): `processPurchase` debits the buyer and appends a
Purchase record exactly when the existence check, the credits check, and the
fulfilment check (INSTANT, or an undelivered sequential unit) all pass; on
any failure the result is one of the three error messages, the state is
returned unchanged, and nothing is written to the medium. -/
theorem processPurchase_atomic (s : DBState) (userId itemId newId : String)
    (now : Int) :
    (∀ (u : User) (it : Item) (r : String × Item),
       s.users.find? (fun x => x.id == userId) = some u →
       s.items.find? (fun x => x.id == itemId) = some it →
       ¬ u.credits < it.price →
       deliverContent it = some r →
       processPurchase s userId itemId newId now =
         (.ok r.1,
          { s with
            users := mutFirst (fun x => x.id == userId)
                       (fun x => { x with credits := x.credits - it.price })
                       s.users,
            items := mutFirst (fun x => x.id == itemId) (fun _ => r.2) s.items,
            purchases := s.purchases ++
              [{ id := newId, userId := userId, itemId := itemId,
                 itemName := it.name, contentDelivered := r.1,
                 timestamp := now, price := it.price }] },
          true)) ∧
    (∀ e, (processPurchase s userId itemId newId now).1 = .err e →
       (e = "User or Item not found" ∨ e = "Insufficient credits" ∨
         e = "Out of stock") ∧
       (processPurchase s userId itemId newId now).2.1 = s ∧
       (processPurchase s userId itemId newId now).2.2 = false) := by
  constructor
  · intro u it r hu hi hcr hd
    unfold processPurchase
    simp only [hu, hi, if_neg hcr, hd]
  · intro e he
    rcases hfu : s.users.find? (fun x => x.id == userId) with _ | u
    · unfold processPurchase at he ⊢
      simp only [hfu] at he ⊢
      have : e = "User or Item not found" := by
        injection he with h
        exact h.symm
      exact ⟨Or.inl this, trivial, trivial⟩
    · rcases hfi : s.items.find? (fun x => x.id == itemId) with _ | it
      · unfold processPurchase at he ⊢
        simp only [hfu, hfi] at he ⊢
        have : e = "User or Item not found" := by
          injection he with h
          exact h.symm
        exact ⟨Or.inl this, trivial, trivial⟩
      · by_cases hcr : u.credits < it.price
        · unfold processPurchase at he ⊢
          simp only [hfu, hfi, if_pos hcr] at he ⊢
          have : e = "Insufficient credits" := by
            injection he with h
            exact h.symm
          exact ⟨Or.inr (Or.inl this), trivial, trivial⟩
        · rcases hd : deliverContent it with _ | r
          · unfold processPurchase at he ⊢
            simp only [hfu, hfi, if_neg hcr, hd] at he ⊢
            have : e = "Out of stock" := by
              injection he with h
              exact h.symm
            exact ⟨Or.inr (Or.inr this), trivial, trivial⟩
          · exfalso
            unfold processPurchase at he
            simp only [hfu, hfi, if_neg hcr, hd] at he
            exact PResult.noConfusion he

/-- Claim C1 counterexample: in `exState` both the existence check and the
credits check pass for user `u1` and the SEQUENTIAL item `i2`, yet no debit
happens and no Purchase record is appended — the purchase fails with "Out of
stock", refuting the claimed "if" direction. -/
theorem processPurchase_checks_not_sufficient :
    exState.users.find? (fun x => x.id == "u1") = some exUser ∧
    exState.items.find? (fun x => x.id == "i2") = some exItemEmpty ∧
    ¬ exUser.credits < exItemEmpty.price ∧
    processPurchase exState "u1" "i2" "p1" 0 =
      (.err "Out of stock", exState, false) := by
  decide

/-- Claim C1 witness: the failure branch applied to the out-of-stock
purchase in `exState`. -/
theorem processPurchase_atomic_witness :
    ((processPurchase exState "u1" "i2" "p1" 0).2.1 = exState ∧
     (processPurchase exState "u1" "i2" "p1" 0).2.2 = false) :=
  ⟨((processPurchase_atomic exState "u1" "i2" "p1" 0).2 "Out of stock"
      (by decide)).2.1,
   ((processPurchase_atomic exState "u1" "i2" "p1" 0).2 "Out of stock"
      (by decide)).2.2⟩

/-- Claim C7: after any sequence of `addItem`/`deleteItem` calls, the item
list is exactly the initial items not later deleted followed by the added
items not later deleted, in insertion order (`deleteItem` removes every
match). -/
theorem getItems_net (ops : List ItemOp) (s : DBState) :
    (applyItemOps ops s).items =
      s.items.filter (fun i => survivesOps ops i.id) ++ addedSurvivors ops := by
  induction ops generalizing s with
  | nil =>
    simp [applyItemOps, addedSurvivors, survivesOps]
  | cons op rest ih =>
    cases op with
    | add it =>
      have hcongr : ∀ i ∈ s.items,
          survivesOps rest i.id = survivesOps (ItemOp.add it :: rest) i.id := by
        intro i _
        simp [survivesOps]
      rw [applyItemOps, ih]
      simp only [applyItemOp, addItem, addedSurvivors]
      rw [List.filter_append, List.filter_congr hcongr, List.append_assoc]
      simp [List.filter_cons]
    | del iid =>
      have hcongr : ∀ i ∈ s.items,
          (survivesOps rest i.id && (i.id != iid)) =
            survivesOps (ItemOp.del iid :: rest) i.id := by
        intro i _
        simp [survivesOps, Bool.and_comm]
      rw [applyItemOps, ih]
      simp only [applyItemOp, deleteItem, addedSurvivors]
      rw [List.filter_filter, List.filter_congr hcongr]

theorem credits_pass (c p : Int) (n k : Nat) (hp : 0 ≤ p)
    (hc : ((n : Int) + 1) * p ≤ c) (hk : k ≤ n) :
    ¬ (c - (k : Int) * p < p) := by
  have hkn : ((k : Int) + 1) ≤ ((n : Int) + 1) := by
    exact_mod_cast Nat.succ_le_succ hk
  have h1 : ((k : Int) + 1) * p ≤ ((n : Int) + 1) * p :=
    mul_le_mul_of_nonneg_right hkn hp
  have h2 : ((k : Int) + 1) * p = (k : Int) * p + p := by ring
  intro hlt
  linarith

theorem processPurchase_seq_step (u : User) (it : Item)
    (sis : List SequentialItem) (sk : DBState) (k : Nat)
    (newId : String) (now : Int)
    (hty : it.type = .SEQUENTIAL)
    (hund : ∀ si ∈ sis, si.isDelivered = false)
    (hus : sk.users = [{ u with credits := u.credits - (k : Int) * it.price }])
    (hit : sk.items = [{ it with
                         sequentialItems := some (markFirst k sis),
                         deliveredCount := it.deliveredCount + (k : Int) }])
    (hcr : ¬ (u.credits - (k : Int) * it.price < it.price))
    (hk : k < sis.length) :
    (processPurchase sk u.id it.id newId now).1 =
      .ok (sis.get ⟨k, hk⟩).content ∧
    (processPurchase sk u.id it.id newId now).2.1.users =
      [{ u with credits := u.credits - ((k : Int) + 1) * it.price }] ∧
    (processPurchase sk u.id it.id newId now).2.1.items =
      [{ it with sequentialItems := some (markFirst (k + 1) sis),
                 deliveredCount := it.deliveredCount + ((k : Int) + 1) }] := by
  obtain ⟨uid, urole, ucred⟩ := u
  obtain ⟨iid, iname, iprice, ity, icont, iseq, icnt⟩ := it
  dsimp only at hty hus hit hcr ⊢
  subst hty
  have hfu : sk.users.find? (fun x => x.id == uid) =
      some ⟨uid, urole, ucred - (k : Int) * iprice⟩ := by
    rw [hus, List.find?_cons_of_pos _ (by simp)]
  have hfi : sk.items.find? (fun x => x.id == iid) =
      some ⟨iid, iname, iprice, .SEQUENTIAL, icont,
            some (markFirst k sis), icnt + (k : Int)⟩ := by
    rw [hit, List.find?_cons_of_pos _ (by simp)]
  have hd : deliverContent ⟨iid, iname, iprice, .SEQUENTIAL, icont,
      some (markFirst k sis), icnt + (k : Int)⟩ =
      some ((sis.get ⟨k, hk⟩).content,
        ⟨iid, iname, iprice, .SEQUENTIAL, icont,
         some (markFirst (k + 1) sis), icnt + (k : Int) + 1⟩) := by
    unfold deliverContent
    dsimp only
    rw [deliverFirst_markFirst sis hund k hk]
  have harith1 : ucred - (k : Int) * iprice - iprice =
      ucred - ((k : Int) + 1) * iprice := by ring
  have harith2 : icnt + (k : Int) + 1 = icnt + ((k : Int) + 1) := by ring
  refine ⟨?_, ?_, ?_⟩
  · unfold processPurchase
    simp only [hfu, hfi, hd]
    rw [if_neg hcr]
  · unfold processPurchase
    simp only [hfu, hfi, hd]
    rw [if_neg hcr]
    dsimp only
    rw [hus]
    simp only [mutFirst, beq_self_eq_true, if_true]
    rw [harith1]
  · unfold processPurchase
    simp only [hfu, hfi, hd]
    rw [if_neg hcr]
    dsimp only
    rw [hit]
    simp only [mutFirst, beq_self_eq_true, if_true]
    rw [harith2]

theorem processPurchase_seq_oos (u : User) (it : Item)
    (sis : List SequentialItem) (sk : DBState) (newId : String) (now : Int)
    (hty : it.type = .SEQUENTIAL)
    (hus : sk.users =
      [{ u with credits := u.credits - (sis.length : Int) * it.price }])
    (hit : sk.items = [{ it with
                         sequentialItems := some (markFirst sis.length sis),
                         deliveredCount :=
                           it.deliveredCount + (sis.length : Int) }])
    (hcr : ¬ (u.credits - (sis.length : Int) * it.price < it.price)) :
    (processPurchase sk u.id it.id newId now).1 = .err "Out of stock" := by
  have hnone : deliverFirst (markFirst sis.length sis) = none := by
    rw [deliverFirst_eq_none_iff]
    exact markFirst_all_delivered sis sis.length (le_refl _)
  obtain ⟨uid, urole, ucred⟩ := u
  obtain ⟨iid, iname, iprice, ity, icont, iseq, icnt⟩ := it
  dsimp only at hty hus hit hcr ⊢
  subst hty
  have hfu : sk.users.find? (fun x => x.id == uid) =
      some ⟨uid, urole, ucred - (sis.length : Int) * iprice⟩ := by
    rw [hus, List.find?_cons_of_pos _ (by simp)]
  have hfi : sk.items.find? (fun x => x.id == iid) =
      some ⟨iid, iname, iprice, .SEQUENTIAL, icont,
            some (markFirst sis.length sis),
            icnt + (sis.length : Int)⟩ := by
    rw [hit, List.find?_cons_of_pos _ (by simp)]
  have hd : deliverContent ⟨iid, iname, iprice, .SEQUENTIAL, icont,
      some (markFirst sis.length sis), icnt + (sis.length : Int)⟩ = none := by
    unfold deliverContent
    dsimp only
    rw [hnone]
  unfold processPurchase
  simp only [hfu, hfi, hd]
  rw [if_neg hcr]

theorem runPurchases_inv (s : DBState) (u : User) (it : Item)
    (sis : List SequentialItem) (ids : Nat → String) (times : Nat → Int)
    (hus : s.users = [u]) (hit : s.items = [it])
    (hty : it.type = .SEQUENTIAL) (hsi : it.sequentialItems = some sis)
    (hund : ∀ si ∈ sis, si.isDelivered = false) (hp : 0 ≤ it.price)
    (hc : ((sis.length : Int) + 1) * it.price ≤ u.credits) :
    ∀ k, k ≤ sis.length →
      (runPurchases u.id it.id ids times k s).users =
        [{ u with credits := u.credits - (k : Int) * it.price }] ∧
      (runPurchases u.id it.id ids times k s).items =
        [{ it with sequentialItems := some (markFirst k sis),
                   deliveredCount := it.deliveredCount + (k : Int) }] := by
  intro k
  induction k with
  | zero =>
    intro _
    constructor
    · rw [runPurchases, hus]
      norm_num
    · rw [runPurchases, hit]
      rw [show markFirst 0 sis = sis from rfl, ← hsi]
      norm_num
  | succ k ih =>
    intro hk1
    have hk : k < sis.length := Nat.lt_of_succ_le hk1
    obtain ⟨hu_k, hit_k⟩ := ih (Nat.le_of_lt hk)
    have hcr := credits_pass u.credits it.price sis.length k hp hc
      (Nat.le_of_lt hk)
    have hstep := processPurchase_seq_step u it sis _ k (ids k) (times k)
      hty hund hu_k hit_k hcr hk
    have hcast : (((k + 1 : Nat)) : Int) = (k : Int) + 1 := by push_cast; ring
    constructor
    · rw [runPurchases, hstep.2.1, hcast]
    · rw [runPurchases, hstep.2.2, hcast]

/-- Claim C2: for a single user and a single SEQUENTIAL item with `N` fresh
(undelivered) units and credits covering every call, the first `N` purchases
succeed, the `k`-th delivering the content of unit `k` in list order while
marking it delivered and incrementing `deliveredCount`, and the `(N+1)`-th
call fails with "Out of stock". -/
theorem sequential_stock_depletion (s : DBState) (u : User) (it : Item)
    (sis : List SequentialItem) (ids : Nat → String) (times : Nat → Int)
    (hus : s.users = [u]) (hit : s.items = [it])
    (hty : it.type = .SEQUENTIAL) (hsi : it.sequentialItems = some sis)
    (hund : ∀ si ∈ sis, si.isDelivered = false) (hp : 0 ≤ it.price)
    (hc : ((sis.length : Int) + 1) * it.price ≤ u.credits) :
    (∀ (k : Nat) (hk : k < sis.length),
       (processPurchase (runPurchases u.id it.id ids times k s) u.id it.id
           (ids k) (times k)).1 = .ok (sis.get ⟨k, hk⟩).content) ∧
    (∀ (newId : String) (now : Int),
       (processPurchase (runPurchases u.id it.id ids times sis.length s)
           u.id it.id newId now).1 = .err "Out of stock") ∧
    (∀ k, k ≤ sis.length →
       (runPurchases u.id it.id ids times k s).users =
         [{ u with credits := u.credits - (k : Int) * it.price }] ∧
       (runPurchases u.id it.id ids times k s).items =
         [{ it with sequentialItems := some (markFirst k sis),
                    deliveredCount := it.deliveredCount + (k : Int) }]) := by
  have hinv := runPurchases_inv s u it sis ids times hus hit hty hsi hund hp hc
  refine ⟨?_, ?_, hinv⟩
  · intro k hk
    obtain ⟨h1, h2⟩ := hinv k (Nat.le_of_lt hk)
    exact (processPurchase_seq_step u it sis _ k (ids k) (times k) hty hund
      h1 h2 (credits_pass u.credits it.price sis.length k hp hc
        (Nat.le_of_lt hk)) hk).1
  · intro newId now
    obtain ⟨h1, h2⟩ := hinv sis.length (le_refl _)
    exact processPurchase_seq_oos u it sis _ newId now hty h1 h2
      (credits_pass u.credits it.price sis.length sis.length hp hc (le_refl _))

/-- Claim C2 witness: the fresh two-unit sequential item `i1` in
`exSeqState`: the first call delivers unit `k1`, the third call is out of
stock. -/
theorem sequential_stock_depletion_witness :
    (processPurchase exSeqState "u1" "i1" "p0" 0).1 = .ok "k1" ∧
    (processPurchase
        (runPurchases "u1" "i1" (fun _ => "p") (fun _ => 0) 2 exSeqState)
        "u1" "i1" "p2" 0).1 = .err "Out of stock" := by
  have h := sequential_stock_depletion exSeqState exUser exItemSeq
    [⟨"k1", false⟩, ⟨"k2", false⟩] (fun _ => "p") (fun _ => 0)
    rfl rfl rfl rfl (by decide) (by decide) (by decide)
  exact ⟨by simpa using h.1 0 (by decide), by simpa using h.2.1 "p2" 0⟩

end Shop
